import Mathlib

/-! Shallow embedding of the NeuroTrALE annotation data model and its
serialization / render-layer code
(`src/neuroglancer/annotation/renderlayer.ts`, which bundles the render
layer together with the basic annotation data structures).

Modelling conventions:
* JS numbers are modelled as `ℚ` (the concrete values in the claims are
  small integers, exactly representable in 32-bit floats, so 32-bit
  float rounding is not modelled).
* The JS `Map` of a store is modelled as an insertion-ordered
  association list, which is exactly the iteration order JS `Map`
  guarantees: `set` on an existing key updates in place, `set` on a new
  key appends, iteration is in insertion order.
* JS exceptions are modelled with `Except` when the source throws before
  mutating anything, and with an explicit `(state, Option error)` result
  when the source mutates in place before a possible throw
  (`restoreState`).
* `-Infinity` / `+Infinity` sentinels of `annotationSizeRange` are
  modelled as `none : Option ℚ`.
* Signals (`changed`, `childAdded`, `childUpdated`, `childDeleted`) are
  modelled as event counters / event logs on the store value.
-/

/-- Annotation ids are opaque strings (`export type AnnotationId = string`). -/
abbrev AnnotationId := String

/-- A 3-component vector (`vec3`), components modelled as rationals. -/
abbrev Vec3 := ℚ × ℚ × ℚ

/-- The `AnnotationType` enum, in source declaration order. -/
inductive AnnotationType where
  | POINT
  | LINE
  | AXIS_ALIGNED_BOUNDING_BOX
  | ELLIPSOID
  | POLYGON
  | LINESTRING
deriving DecidableEq, Repr

/-- Model of `annotationTypes`: the fixed enumeration order used by every
serialization and pick-resolution loop. -/
def annotationTypes : List AnnotationType :=
  [.POINT, .LINE, .AXIS_ALIGNED_BOUNDING_BOX, .ELLIPSOID, .POLYGON, .LINESTRING]

/-- The geometry payload of each annotation variant (the tagged-union part
of the `Annotation` type: `Line`, `Point`, `AxisAlignedBoundingBox`,
`Ellipsoid`, `Polygon`, `LineString`). -/
inductive Geometry where
  | point (point : Vec3)
  | line (pointA pointB : Vec3)
  | axisAlignedBoundingBox (pointA pointB : Vec3)
  | ellipsoid (center radii : Vec3)
  | polygon (points : List Vec3)
  | lineString (points : List Vec3)
deriving DecidableEq, Repr

/-- The variant tag of a geometry payload. -/
def Geometry.type : Geometry → AnnotationType
  | .point _ => .POINT
  | .line _ _ => .LINE
  | .axisAlignedBoundingBox _ _ => .AXIS_ALIGNED_BOUNDING_BOX
  | .ellipsoid _ _ => .ELLIPSOID
  | .polygon _ => .POLYGON
  | .lineString _ => .LINESTRING

/-- One annotation: the common `AnnotationBase` fields plus the geometry
payload.  `segments` holds 64-bit segment ids (modelled as `Nat`), `size`
is the optional scalar used by the size-range index (`undefined` is
`none`). -/
structure Annotation where
  id : AnnotationId
  geometry : Geometry
  description : Option String := none
  anntype : Option String := none
  reviewed : Option Bool := none
  visited : Option Bool := none
  segments : Option (List Nat) := none
  size : Option ℚ := none
deriving DecidableEq, Repr

/-- Model of `annotation.type`, derived from the payload tag. -/
def Annotation.type (a : Annotation) : AnnotationType := a.geometry.type

/-! JS `Map` semantics over insertion-ordered association lists -/

/-- Model of `map.get(id)` on the insertion-ordered association list. -/
def mapGet (m : List (AnnotationId × Annotation)) (id : AnnotationId) :
    Option Annotation :=
  (m.find? (fun kv => kv.1 = id)).map (fun kv => kv.2)

/-- Model of `map.has(id)`. -/
def mapHas (m : List (AnnotationId × Annotation)) (id : AnnotationId) : Bool :=
  m.any (fun kv => kv.1 = id)

/-- Model of `map.set(id, a)`: update in place if the key exists (keeping its
position), otherwise append, as JS `Map` does. -/
def mapSet : List (AnnotationId × Annotation) → AnnotationId → Annotation →
    List (AnnotationId × Annotation)
  | [], id, a => [(id, a)]
  | (k, v) :: rest, id, a =>
    if k = id then (k, a) :: rest else (k, v) :: mapSet rest id a

/-- Model of `map.delete(id)`.  Keys are unique in every map this development
builds, so removing all matches equals removing the single entry. -/
def mapDelete (m : List (AnnotationId × Annotation)) (id : AnnotationId) :
    List (AnnotationId × Annotation) :=
  m.filter (fun kv => kv.1 ≠ id)

/-- The values of the map in iteration (insertion) order
(`annotationMap.values()`). -/
def mapValues (m : List (AnnotationId × Annotation)) : List Annotation :=
  m.map (fun kv => kv.2)

/-! The size-range index -/

/-- Model of `AnnotationSource.updateAnnotationSizeRange` (renderlayer.ts, data-model
part): four sequential `if` statements widening `annotationSizeRange`
against one annotation.  `none` stands for the `-Infinity` / `+Infinity`
sentinels of the two slots. -/
def updateAnnotationSizeRange (range : Option ℚ × Option ℚ) ( annotation : Annotation) :
    Option ℚ × Option ℚ :=
  let lo := range.1
  let hi := range.2
  let lo := if lo = none ∧ annotation.size ≠ none then annotation.size else lo
  let hi := if hi = none ∧ annotation.size ≠ none then annotation.size else hi
  let lo := match lo, annotation.size with
    | some l, some v => if v < l then some v else some l
    | x, _ => x
  let hi := match hi, annotation.size with
    | some h, some v => if v > h then some v else some h
    | x, _ => x
  (lo, hi)

/-- Model of `AnnotationSource.recalculateAnnotationSizeRange`: reset to the
sentinels, then replay `updateAnnotationSizeRange` over the whole map in
iteration order. -/
def recalculateAnnotationSizeRange (m : List (AnnotationId × Annotation)) :
    Option ℚ × Option ℚ :=
  (mapValues m).foldl updateAnnotationSizeRange (none, none)

/-! References and the store -/

/-- An `AnnotationReference` handle: `value = none` models the tombstoned
(`null`) state.  The `undefined` (still-loading) state of the source is
never produced by `AnnotationSource.getReference`, which resolves the
value immediately, so it is not modelled.  `changedCount` counts
`reference.changed` dispatches. -/
structure AnnotationReference where
  id : AnnotationId
  value : Option Annotation
  changedCount : Nat := 0
deriving DecidableEq, Repr

/-- The `AnnotationSource` store state.  `references` is the id → handle
registry (only the current `value` of each registered handle is tracked).
`changedCount` counts store `changed` dispatches; the `child*Ids` lists
log the per-child signals in dispatch order. -/
structure AnnotationSource where
  annotationMap : List (AnnotationId × Annotation) := []
  annotationSizeRange : Option ℚ × Option ℚ := (none, none)
  pending : List AnnotationId := []
  references : List (AnnotationId × Option Annotation) := []
  changedCount : Nat := 0
  childAddedIds : List AnnotationId := []
  childUpdatedIds : List AnnotationId := []
  childDeletedIds : List AnnotationId := []
deriving DecidableEq, Repr

/-- A freshly constructed, empty store. -/
def emptyAnnotationSource : AnnotationSource := {}

/-- Model of `AnnotationSource.getReference(id)`: return the registered handle if
present, otherwise construct one whose value is
`annotationMap.get(id) || null` and register it.  (Reference counting of
handles is not modelled.) -/
def getReference (s : AnnotationSource) (id : AnnotationId) :
    AnnotationSource × AnnotationReference :=
  match s.references.find? (fun kv => kv.1 = id) with
  | some kv => (s, { id := id, value := kv.2 })
  | none =>
    let value := mapGet s.annotationMap id
    ({ s with references := s.references ++ [(id, value)] },
     { id := id, value := value })

/-- Model of `AnnotationSource.add( annotation, commit)`.  `makeAnnotationId()` (a
random 160-bit hex string, not shallowly embeddable) is replaced by the
explicit `freshId` argument, used only when `annotation.id` is falsy
(the empty string).  The source throws on a duplicate id before any
mutation, so the error case returns the store unchanged. -/
def AnnotationSource.add (s : AnnotationSource) ( annotation : Annotation)
    (commit : Bool) (freshId : AnnotationId) :
    AnnotationSource × Except String AnnotationReference :=
  let ann := if annotation.id = "" then { annotation with id := freshId } else annotation
  if annotation.id ≠ "" ∧ mapHas s.annotationMap annotation.id then
    (s, .error ("Annotation id already exists."))
  else
    let s := { s with
      annotationMap := mapSet s.annotationMap ann.id ann
      annotationSizeRange := updateAnnotationSizeRange s.annotationSizeRange ann
      changedCount := s.changedCount + 1
      childAddedIds := s.childAddedIds ++ [ann.id] }
    let pendingAfter := if ann.id ∈ s.pending then s.pending else s.pending ++ [ann.id]
    let s := if !commit then { s with pending := pendingAfter } else s
    let (s, ref) := getReference s ann.id
    (s, .ok ref)

/-- Model of `AnnotationSource.commit(reference)`: drop the id from the pending
set (a no-op when it is not pending). -/
def AnnotationSource.commitRef (s : AnnotationSource) (reference : AnnotationReference) :
    AnnotationSource :=
  { s with pending := s.pending.filter (fun id => id ≠ reference.id) }

/-- Model of `AnnotationSource.update(reference, annotation)`: throws
`Annotation already deleted.` on a tombstoned reference (before any
mutation), otherwise repoints the reference, overwrites the map entry and
widens the size range. -/
def AnnotationSource.update (s : AnnotationSource) (reference : AnnotationReference)
    ( annotation : Annotation) :
    AnnotationSource × AnnotationReference × Option String :=
  if reference.value = none then
    (s, reference, some ("Annotation already deleted."))
  else
    let ref := { reference with
      value := some annotation
      changedCount := reference.changedCount + 1 }
    let s := { s with
      annotationMap := mapSet s.annotationMap annotation.id annotation
      annotationSizeRange := updateAnnotationSizeRange s.annotationSizeRange annotation
      changedCount := s.changedCount + 1
      childUpdatedIds := s.childUpdatedIds ++ [ annotation.id] }
    (s, ref, none)

/-- Model of `AnnotationSource.delete(reference, nullifyReference?)`: a no-op on a
tombstoned reference; otherwise tombstone the handle unless
`nullifyReference === false`, remove the map entry and the registry
entry, fully recompute the size range, and fire the signals.
`nullifyReference = none` models the omitted (undefined) argument. -/
def AnnotationSource.delete (s : AnnotationSource) (reference : AnnotationReference)
    (nullifyReference : Option Bool) :
    AnnotationSource × AnnotationReference :=
  if reference.value = none then
    (s, reference)
  else
    let ref := if nullifyReference ≠ some false
      then { reference with value := none } else reference
    let map := mapDelete s.annotationMap reference.id
    let s := { s with
      annotationMap := map
      references := s.references.filter (fun kv => kv.1 ≠ reference.id)
      annotationSizeRange := recalculateAnnotationSizeRange map
      pending := s.pending.filter (fun id => id ≠ reference.id)
      changedCount := s.changedCount + 1
      childDeletedIds := s.childDeletedIds ++ [reference.id] }
    (s, { ref with changedCount := ref.changedCount + 1 })

/-- Model of `AnnotationSource.clear()`: empty the map and the pending set and fire
`changed`.  Note that `annotationSizeRange` is left untouched by the
source. -/
def AnnotationSource.clear (s : AnnotationSource) : AnnotationSource :=
  { s with annotationMap := [], pending := [], changedCount := s.changedCount + 1 }

/-! JSON persistence -/

/-- A JSON-compatible plain value.  `none`/missing keys model the JS
`undefined` distinct from `Json.null`. -/
inductive Json where
  | null
  | bool (b : Bool)
  | num (q : ℚ)
  | str (s : String)
  | arr (elements : List Json)
  | obj (fields : List (String × Json))
deriving Repr

/-- Field lookup on a JSON object (missing key is JS `undefined`). -/
def jsonField (fields : List (String × Json)) (key : String) : Option Json :=
  (fields.find? (fun kv => kv.1 = key)).map (fun kv => kv.2)

/-- The lower-cased enum name used as the persisted `type` tag
(`AnnotationType[ annotation.type].toLowerCase()`). -/
def annotationTypeTag : AnnotationType → String
  | .POINT => "point"
  | .LINE => "line"
  | .AXIS_ALIGNED_BOUNDING_BOX => "axis_aligned_bounding_box"
  | .ELLIPSOID => "ellipsoid"
  | .POLYGON => "polygon"
  | .LINESTRING => "linestring"

/-- A `vec3` in plain JSON form. -/
def vec3ToJson (v : Vec3) : Json :=
  .arr [.num v.1, .num v.2.1, .num v.2.2]

/-- The per-variant `toJSON` of the data-model type handlers: the
geometry keys of the plain form. -/
def geometryToJsonFields : Geometry → List (String × Json)
  | .point p => [("point", vec3ToJson p)]
  | .line a b => [("pointA", vec3ToJson a), ("pointB", vec3ToJson b)]
  | .axisAlignedBoundingBox a b => [("pointA", vec3ToJson a), ("pointB", vec3ToJson b)]
  | .ellipsoid c r => [("center", vec3ToJson c), ("radii", vec3ToJson r)]
  | .polygon ps => [("points", .arr (ps.map vec3ToJson))]
  | .lineString ps => [("points", .arr (ps.map vec3ToJson))]

/-- A key that is present only when its value is defined (JS keys set to
`undefined` disappear from the serialized JSON). -/
def optField (key : String) : Option Json → List (String × Json)
  | some j => [(key, j)]
  | none => []

/-- Model of `annotationToJson`: the plain persisted form of one annotation.
`description || undefined` collapses the empty string to `undefined`;
`segments` serialize as decimal strings only when non-empty; `size` is
persisted under the key `length`. -/
def annotationToJson ( annotation : Annotation) : Json :=
  let descriptionOut := match annotation.description with
    | some d => if d = "" then none else some (Json.str d)
    | none => none
  let segmentsOut := match annotation.segments with
    | some segs =>
      if segs.length > 0 then some (Json.arr (segs.map (fun x => Json.str (toString x))))
      else none
    | none => none
  .obj (geometryToJsonFields annotation.geometry
    ++ [("type", .str (annotationTypeTag annotation.type)), ("id", .str annotation.id)]
    ++ optField ("description") descriptionOut
    ++ optField ("anntype") ( annotation.anntype.map Json.str)
    ++ optField ("reviewed") ( annotation.reviewed.map Json.bool)
    ++ optField ("visited") ( annotation.visited.map Json.bool)
    ++ optField ("segments") segmentsOut
    ++ optField ("length") ( annotation.size.map Json.num))

/-- Model of `AnnotationSource.toJSON`: the plain-form array of every non-pending
annotation, in map iteration order; pending (uncommitted) annotations are
skipped. -/
def AnnotationSource.toJSON (s : AnnotationSource) : List Json :=
  (mapValues s.annotationMap).filterMap (fun annotation =>
    if annotation.id ∈ s.pending then none else some (annotationToJson annotation))

/-! Schema validation (restore path)

The `verify*` helpers live in `neuroglancer/util/json`, outside this
repository's sources; they are modelled from the spec (§6/§7: restore
payloads are schema-validated plain forms, errors are thrown). -/

/-- Modelled from the spec: `verifyObject` — the payload entry must be a
JSON object. -/
def verifyObject : Json → Except String (List (String × Json))
  | .obj fields => .ok fields
  | _ => .error ("expected JSON object")

/-- Modelled from the spec: `verifyString` — the property must be a
string. -/
def verifyString : Option Json → Except String String
  | some (.str s) => .ok s
  | _ => .error ("expected string")

/-- Modelled from the spec: `verifyOptionalString` — missing is allowed,
anything else must be a string. -/
def verifyOptionalString : Option Json → Except String (Option String)
  | none => .ok none
  | some (.str s) => .ok (some s)
  | _ => .error ("expected string")

/-- Modelled from the spec: `verifyOptionalBoolean`. -/
def verifyOptionalBoolean : Option Json → Except String (Option Bool)
  | none => .ok none
  | some (.bool b) => .ok (some b)
  | _ => .error ("expected boolean")

/-- Modelled from the spec: `verifyOptionalInt` — missing is allowed,
anything else must be an integer number. -/
def verifyOptionalInt : Option Json → Except String (Option ℚ)
  | none => .ok none
  | some (.num q) => if q.den = 1 then .ok (some q) else .error ("expected integer")
  | _ => .error ("expected integer")

/-- Modelled from the spec: `verifyEnumString(x, AnnotationType)` —
accepts the lower-cased enum tags produced by `annotationToJson`
(case-insensitivity of the source helper is not exercised here). -/
def verifyEnumAnnotationType : Option Json → Except String AnnotationType
  | some (.str s) =>
    if s = "point" then .ok .POINT
    else if s = "line" then .ok .LINE
    else if s = "axis_aligned_bounding_box" then .ok .AXIS_ALIGNED_BOUNDING_BOX
    else if s = "ellipsoid" then .ok .ELLIPSOID
    else if s = "polygon" then .ok .POLYGON
    else if s = "linestring" then .ok .LINESTRING
    else .error ("invalid enum value")
  | _ => .error ("invalid enum value")

/-- Modelled from the spec: `verify3dVec` — a length-3 array of numbers. -/
def verify3dVec : Option Json → Except String Vec3
  | some (.arr [.num a, .num b, .num c]) => .ok (a, b, c)
  | _ => .error ("expected 3-element numeric array")

/-- Modelled from the spec: `verify3dScale` — validated like a 3-vector
(positivity of the source helper is not exercised by any claim). -/
def verify3dScale : Option Json → Except String Vec3 :=
  verify3dVec

/-- Modelled from the spec: `Uint64.parseString` — a decimal string whose
value fits in 64 bits (§6: segment lists round-trip through decimal
strings). -/
def parseUint64String : Json → Except String Nat
  | .str s =>
    match s.toNat? with
    | some n => if n < 2 ^ 64 then .ok n else .error ("number out of range")
    | none => .error ("expected uint64 string")
  | _ => .error ("expected uint64 string")

/-- The `segments` property of `restoreAnnotation`: `undefined` stays
`undefined`, otherwise `parseArray(x, Uint64.parseString)`. -/
def parseSegmentsProperty : Option Json → Except String (Option (List Nat))
  | none => .ok none
  | some (.arr l) => do
    let segs ← l.mapM parseUint64String
    .ok (some segs)
  | some _ => .error ("expected array")

/-- The `points` assignment of the Polygon/LineString type-handler
`restoreState`: the source assigns `annotation.points = obj.points` with
no validation at all; a well-typed embedding must coerce, so well-formed
point triples are kept and anything else contributes nothing.  No claim
exercises malformed polygon payloads. -/
def jsonPointsLenient : Option Json → List Vec3
  | some (.arr l) =>
    l.filterMap (fun j => match j with
      | .arr [.num a, .num b, .num c] => some (a, b, c)
      | _ => none)
  | _ => []

/-- The per-variant `restoreState` of the data-model type handlers:
recovers the geometry payload from the plain form. -/
def restoreGeometry (type : AnnotationType) (fields : List (String × Json)) :
    Except String Geometry :=
  match type with
  | .POINT => do
    let p ← verify3dVec (jsonField fields ("point"))
    .ok (.point p)
  | .LINE => do
    let a ← verify3dVec (jsonField fields ("pointA"))
    let b ← verify3dVec (jsonField fields ("pointB"))
    .ok (.line a b)
  | .AXIS_ALIGNED_BOUNDING_BOX => do
    let a ← verify3dVec (jsonField fields ("pointA"))
    let b ← verify3dVec (jsonField fields ("pointB"))
    .ok (.axisAlignedBoundingBox a b)
  | .ELLIPSOID => do
    let c ← verify3dVec (jsonField fields ("center"))
    let r ← verify3dScale (jsonField fields ("radii"))
    .ok (.ellipsoid c r)
  | .POLYGON => .ok (.polygon (jsonPointsLenient (jsonField fields ("points"))))
  | .LINESTRING => .ok (.lineString (jsonPointsLenient (jsonField fields ("points"))))

/-- Model of `restoreAnnotation(obj)` (with `allowMissingId = false`, as
`restoreState` calls it): validates the common fields in source order and
then delegates to the type handler.  `fresh` stands in for
`makeAnnotationId()`, used when the validated id is the empty string
(`verifyString(...) || makeAnnotationId()`). -/
def restoreAnnotation (fresh : AnnotationId) (obj : Json) : Except String Annotation := do
  let fields ← verifyObject obj
  let type ← verifyEnumAnnotationType (jsonField fields ("type"))
  let idRaw ← verifyString (jsonField fields ("id"))
  let id := if idRaw = "" then fresh else idRaw
  let description ← verifyOptionalString (jsonField fields ("description"))
  let anntype ← verifyOptionalString (jsonField fields ("anntype"))
  let reviewed ← verifyOptionalBoolean (jsonField fields ("reviewed"))
  let visited ← verifyOptionalBoolean (jsonField fields ("visited"))
  let segments ← parseSegmentsProperty (jsonField fields ("segments"))
  let size ← verifyOptionalInt (jsonField fields ("length"))
  let geometry ← restoreGeometry type fields
  .ok { id := id, geometry := geometry, description := description,
        anntype := anntype, reviewed := reviewed, visited := visited,
        segments := segments, size := size }

/-- The body of `restoreState`'s `parseArray` loop: restore each entry in
order, inserting it into the map and widening the size range; the first
invalid entry propagates its error, with every earlier insertion already
applied (the JS loop mutates in place before the throw).  The index feeds
the `makeAnnotationId()` stand-in. -/
def restoreStateGo (freshIds : Nat → AnnotationId) :
    AnnotationSource → List Json → Nat → AnnotationSource × Option String
  | s, [], _ => (s, none)
  | s, e :: es, i =>
    match restoreAnnotation (freshIds i) e with
    | .error msg => (s, some msg)
    | .ok a =>
      restoreStateGo freshIds
        { s with
          annotationMap := mapSet s.annotationMap a.id a
          annotationSizeRange := updateAnnotationSizeRange s.annotationSizeRange a }
        es (i + 1)

/-- The reference re-resolution and final `changed` dispatch at the end of
a successful `restoreState`: every registered handle is repointed to
`annotationMap.get(id) || null`. -/
def finishRestore (s : AnnotationSource) : AnnotationSource :=
  { s with
    references := s.references.map (fun kv => (kv.1, mapGet s.annotationMap kv.1))
    changedCount := s.changedCount + 1 }

/-- Model of `AnnotationSource.restoreState(obj)`: clear the map and the pending
set first, then parse the payload (`undefined` skips the parse; a
non-array payload is a `parseArray` failure), then re-resolve references
and fire `changed` once.  The result carries the post-call store state
together with the propagated error, if any: on error the map stays
cleared (holding the entries restored before the failure) and neither the
reference re-resolution nor the `changed` dispatch runs. -/
def AnnotationSource.restoreState (s : AnnotationSource) (obj : Option Json)
    (freshIds : Nat → AnnotationId) : AnnotationSource × Option String :=
  let s1 := { s with annotationMap := [], pending := [] }
  match obj with
  | none => (finishRestore s1, none)
  | some (.arr entries) =>
    match restoreStateGo freshIds s1 entries 0 with
    | (s2, some e) => (s2, some e)
    | (s2, none) => (finishRestore s2, none)
  | some _ => (s1, some ("expected array"))

/-! The data-model binary serializer (`serializeAnnotations`) -/

/-- Model of `serializedBytes` of the data-model type handlers.  Polygon and
LineString reserve a fixed `100000 * 3 * 4`-byte region per annotation
regardless of its point count. -/
def serializedBytes : AnnotationType → Nat
  | .POINT => 3 * 4
  | .LINE => 6 * 4
  | .AXIS_ALIGNED_BOUNDING_BOX => 6 * 4
  | .ELLIPSOID => 6 * 4
  | .POLYGON => 100000 * 3 * 4
  | .LINESTRING => 100000 * 3 * 4

/-- Model of `compare3WayById`: the three-way comparator
`a.id < b.id ? -1 : a.id === b.id ? 0 : 1`. -/
def compare3WayById (a b : Annotation) : Int :=
  if a.id < b.id then -1 else if a.id = b.id then 0 else 1

/-- The non-strict id order induced by `compare3WayById`. -/
def annIdLe (a b : Annotation) : Prop := a.id ≤ b.id

instance : DecidableRel annIdLe :=
  fun a b => inferInstanceAs (Decidable (a.id ≤ b.id))

instance : IsTotal Annotation annIdLe := ⟨fun a b => le_total a.id b.id⟩

instance : IsTrans Annotation annIdLe := ⟨fun _ _ _ h1 h2 => le_trans h1 h2⟩

/-- Sanity check: ordering by `annIdLe` is ordering by a non-positive
`compare3WayById` result, so a (stable) sort with the source's comparator
is a sort by `annIdLe`. -/
theorem annIdLe_iff_compare3WayById (a b : Annotation) :
    annIdLe a b ↔ compare3WayById a b ≤ 0 := by
  unfold annIdLe compare3WayById
  rcases lt_trichotomy a.id b.id with h | h | h
  · simp [h, le_of_lt h]
  · simp [h, le_of_eq h, lt_irrefl]
  · have h1 : ¬a.id < b.id := not_lt_of_gt h
    have h2 : a.id ≠ b.id := ne_of_gt h
    have h3 : ¬a.id ≤ b.id := not_le_of_gt h
    simp [h1, h2, h3]

/-- Model of `annotations.sort(compare3WayById)`: JS `Array.prototype.sort` is
stable, so its result is the stable sort by `annIdLe`, here realized as
insertion sort. -/
def sortAnnotations (l : List Annotation) : List Annotation :=
  List.insertionSort annIdLe l

/-- Float32Array view length (in 4-byte words) per instance, as passed to
the view constructor: `numAnnotations * 3` for points, and
`numAnnotations * 6` for every other handler — including Polygon and
LineString, whose serializers also construct a `numAnnotations * 6` view. -/
def viewWordsPerInstance : AnnotationType → Nat
  | .POINT => 3
  | .LINE => 6
  | .AXIS_ALIGNED_BOUNDING_BOX => 6
  | .ELLIPSOID => 6
  | .POLYGON => 6
  | .LINESTRING => 6

/-- The words (view-relative word index, value) one type-handler
serializer writes for one annotation at instance index `index`.
A wrong-variant annotation never occurs in a type's bucket, so it
contributes no writes. -/
def serializerWrites : AnnotationType → Annotation → Nat → List (Nat × ℚ)
  | .POINT, a, index =>
    match a.geometry with
    | .point p => [(index * 3, p.1), (index * 3 + 1, p.2.1), (index * 3 + 2, p.2.2)]
    | _ => []
  | .LINE, a, index =>
    match a.geometry with
    | .line pointA pointB =>
      [(index * 6, pointA.1), (index * 6 + 1, pointA.2.1), (index * 6 + 2, pointA.2.2),
       (index * 6 + 3, pointB.1), (index * 6 + 4, pointB.2.1), (index * 6 + 5, pointB.2.2)]
    | _ => []
  | .AXIS_ALIGNED_BOUNDING_BOX, a, index =>
    match a.geometry with
    | .axisAlignedBoundingBox pointA pointB =>
      [(index * 6, min pointA.1 pointB.1),
       (index * 6 + 1, min pointA.2.1 pointB.2.1),
       (index * 6 + 2, min pointA.2.2 pointB.2.2),
       (index * 6 + 3, max pointA.1 pointB.1),
       (index * 6 + 4, max pointA.2.1 pointB.2.1),
       (index * 6 + 5, max pointA.2.2 pointB.2.2)]
    | _ => []
  | .ELLIPSOID, a, index =>
    match a.geometry with
    | .ellipsoid center radii =>
      [(index * 6, center.1), (index * 6 + 1, center.2.1), (index * 6 + 2, center.2.2),
       (index * 6 + 3, radii.1), (index * 6 + 4, radii.2.1), (index * 6 + 5, radii.2.2)]
    | _ => []
  | .POLYGON, a, index =>
    match a.geometry with
    | .polygon points =>
      points.enum.flatMap (fun ip =>
        [((index + ip.1) * 3, ip.2.1), ((index + ip.1) * 3 + 1, ip.2.2.1),
         ((index + ip.1) * 3 + 2, ip.2.2.2)])
    | _ => []
  | .LINESTRING, a, index =>
    match a.geometry with
    | .lineString points =>
      points.enum.flatMap (fun ip =>
        [((index + ip.1) * 3, ip.2.1), ((index + ip.1) * 3 + 1, ip.2.2.1),
         ((index + ip.1) * 3 + 2, ip.2.2.2)])
    | _ => []

/-- Apply a serializer's writes through its Float32Array view: a write
whose view index falls outside the view length is silently dropped, as a
typed-array out-of-bounds store is in JS. -/
def applyViewWrites (buf : List ℚ) (startWord viewLen : Nat)
    (writes : List (Nat × ℚ)) : List ℚ :=
  writes.foldl
    (fun b w => if w.1 < viewLen then b.set (startWord + w.1) w.2 else b) buf

/-- The output of `serializeAnnotations`: `data` is the packed buffer as
32-bit-float words. -/
structure SerializedAnnotations where
  data : List ℚ
  typeToIds : AnnotationType → List AnnotationId
  typeToOffset : AnnotationType → Nat
  segmentListIndex : List Nat
  segmentList : List Nat

/-- The body of `serializeAnnotations` after the in-place
`annotations.sort(compare3WayById)` of the first loop: region layout,
id tables, buffer writes and segment tables, all computed from the
per-type sorted buckets in fixed enumeration order. -/
def serializeAnnotationsBuild (sorted : AnnotationType → List Annotation) :
    SerializedAnnotations :=
  let countOf := fun t => (sorted t).length
  let typeToOffset := fun t =>
    ((annotationTypes.takeWhile (fun u => u ≠ t)).map
      (fun u => serializedBytes u * countOf u)).sum
  let totalBytes := (annotationTypes.map (fun u => serializedBytes u * countOf u)).sum
  let typeToIds := fun t => (sorted t).map (fun a => a.id)
  let data := annotationTypes.foldl
    (fun buf t =>
      (sorted t).enum.foldl
        (fun b ia =>
          applyViewWrites b (typeToOffset t / 4) (countOf t * viewWordsPerInstance t)
            (serializerWrites t ia.2 ia.1))
        buf)
    (List.replicate (totalBytes / 4) 0)
  let allSorted := annotationTypes.flatMap sorted
  let segCounts := allSorted.map (fun a => (a.segments.getD []).length)
  let segmentListIndex :=
    (List.range allSorted.length).map (fun j => (segCounts.take j).sum) ++ [0]
  let segmentList := allSorted.flatMap
    (fun a => (a.segments.getD []).flatMap (fun seg => [seg % 2 ^ 32, seg / 2 ^ 32]))
  { data := data, typeToIds := typeToIds, typeToOffset := typeToOffset,
    segmentListIndex := segmentListIndex, segmentList := segmentList }

/-- Model of `serializeAnnotations(allAnnotations)`: sort each type's bucket by id
with `compare3WayById`, then lay out and pack the buffer in fixed
enumeration order. -/
def serializeAnnotations (allAnnotations : AnnotationType → List Annotation) :
    SerializedAnnotations :=
  serializeAnnotationsBuild (fun t => sortAnnotations (allAnnotations t))

/-! The render layer (`renderlayer.ts` proper) -/

/-- The segmentation collaborator state used by `segmentationFilter`:
a visible-segment membership test plus the equivalence resolution map. -/
structure SegmentationState where
  visibleSegments : List Nat
  segmentEquivalences : Nat → Nat

/-- Model of `segmentationFilter(segmentationState)`: with no attached state
(`null` or `undefined`, both covered by `== null`) every annotation is
rejected; otherwise an annotation passes iff some of its segments maps to
a visible segment, and annotations without a `segments` list are
rejected. -/
def segmentationFilter (segmentationState : Option SegmentationState) :
    Annotation → Bool :=
  match segmentationState with
  | none => fun _ => false
  | some st => fun annotation =>
    match annotation.segments with
    | none => false
    | some segments =>
      segments.any (fun segment =>
        st.visibleSegments.contains (st.segmentEquivalences segment))

/-- Modelled from the spec: the per-type render handlers
(`getAnnotationTypeRenderHandler`, defined in the per-type modules
`annotation/point.ts` etc., which are not among this repository's
sources).  §4.1 specifies `packedByteSize` (`bytes`) and a per-annotation
pick-id contribution whose list form is `pickIdsPerInstance`. -/
structure RenderHandler where
  bytes : Annotation → Nat
  pickIdsPer : Annotation → Nat

/-- Model of `handler.pickIdsPerInstance(annotations)`: per spec §4.1(d), the list
of per-annotation pick-id counts. -/
def RenderHandler.pickIdsPerInstance (h : RenderHandler)
    (annotations : List Annotation) : List Nat :=
  annotations.map h.pickIdsPer

/-- Modelled from the spec: a concrete render-handler table following
§4.1 — fixed-size variants occupy one coordinate per 4 bytes (12 bytes
for a point, 24 for the two-point and center+radii variants), Polygon and
LineString occupy a per-point stride times their point count, and the
pick-id contribution is 1 except for the multi-vertex variants, where
each vertex is independently pickable. -/
def specRenderHandlers : AnnotationType → RenderHandler := fun _ =>
  { bytes := fun a =>
      match a.geometry with
      | .point _ => 12
      | .line _ _ => 24
      | .axisAlignedBoundingBox _ _ => 24
      | .ellipsoid _ _ => 24
      | .polygon ps => 12 * ps.length
      | .lineString ps => 12 * ps.length
    pickIdsPer := fun a =>
      match a.geometry with
      | .polygon ps => ps.length
      | .lineString ps => ps.length
      | _ => 1 }

/-- The stand-in for the non-null assertion `annotationSet.get(id)!`:
ids handed to the lookups below always come from the map itself. -/
def dfltAnnotation : Annotation :=
  { id := "", geometry := .point (0, 0, 0) }

/-- Model of `filter === undefined || filter( annotation)`. -/
def filterPasses (filter : Option ( Annotation → Bool)) ( annotation : Annotation) : Bool :=
  match filter with
  | none => true
  | some f => f annotation

/-- The output of `serializeAnnotationSet`: the per-type id lists in the
order the annotations were packed, the per-type byte offsets, the total
byte size of the buffer (`data.byteLength`) and the pick-id budget.  The
byte-writing loop itself calls the external per-type render serializers
and is not modelled; its layout is captured by `typeToOffset` /
`totalBytes`. -/
structure SerializedAnnotationSet where
  typeToIds : AnnotationType → List AnnotationId
  typeToOffset : AnnotationType → Nat
  totalBytes : Nat
  numPickIds : Nat

/-- Model of `serializeAnnotationSet(annotationSet, filter?)`: walk the store in
map iteration (insertion) order pushing each passing annotation's id onto
its type's list — no sorting — then lay the type regions out back to back
in fixed enumeration order and accumulate the pick-id budget via
`pickIdsPerInstance`. -/
def serializeAnnotationSet (h : AnnotationType → RenderHandler)
    (annotationSet : AnnotationSource) (filter : Option ( Annotation → Bool)) :
    SerializedAnnotationSet :=
  let passed := (mapValues annotationSet.annotationMap).filter (filterPasses filter)
  let typeToIds := fun t => (passed.filter (fun a => a.type = t)).map (fun a => a.id)
  let lookup := fun id => (mapGet annotationSet.annotationMap id).getD dfltAnnotation
  let regionBytes := fun t => ((typeToIds t).map (fun id => (h t).bytes (lookup id))).sum
  let typeToOffset := fun t =>
    ((annotationTypes.takeWhile (fun u => u ≠ t)).map regionBytes).sum
  let totalBytes := (annotationTypes.map regionBytes).sum
  let numPickIds := (annotationTypes.map
    (fun t => ((h t).pickIdsPerInstance ((typeToIds t).map lookup)).sum)).sum
  { typeToIds := typeToIds, typeToOffset := typeToOffset,
    totalBytes := totalBytes, numPickIds := numPickIds }

/-- Model of `AnnotationLayer.updateBuffer` (generation gating aside): rebuild the
serialization, applying `segmentationFilter` only when
filter-by-segmentation is enabled. -/
def updateBufferSerialize (h : AnnotationType → RenderHandler)
    (source : AnnotationSource) (filterBySegmentation : Bool)
    (segmentationState : Option SegmentationState) : SerializedAnnotationSet :=
  serializeAnnotationSet h source
    (if filterBySegmentation then some (segmentationFilter segmentationState) else none)

/-! Pick resolution (`updateMouseState`) -/

/-- The fields `updateMouseState` records on the mouse state when the
pick offset resolves: the owning annotation's id, the intra-annotation
part index (stored back into `mouseState.pickedOffset`), and the byte
offset of the annotation within its type's region. -/
structure PickResult where
  pickedAnnotationId : AnnotationId
  pickedOffset : Nat
  pickedAnnotationBufferOffset : Nat
deriving DecidableEq, Repr

/-- The inner scan of `updateMouseState`: walk the per-instance pick-id
counts accumulating `pickIdSum` and `instanceIndex` until the running sum
exceeds the picked offset; the part index is
`pickIds[i] - (pickIdSum - pickedOffset)`.  The exhausted case cannot be
reached under the caller's `pickedOffset < pickIdCount` guard. -/
def findInstanceGo : List Nat → Nat → Nat → Nat → Nat × Nat
  | [], _, _, instanceIndex => (instanceIndex, 0)
  | p :: ps, pickedOffset, pickIdSum, instanceIndex =>
    let s := pickIdSum + p
    if s > pickedOffset then (instanceIndex, p - (s - pickedOffset))
    else findInstanceGo ps pickedOffset s (instanceIndex + 1)

/-- Entry point of the inner scan (`pickIdSum = 0`, `instanceIndex = 0`). -/
def findInstance (pickIds : List Nat) (pickedOffset : Nat) : Nat × Nat :=
  findInstanceGo pickIds pickedOffset 0 0

/-- The per-type loop of `updateMouseState`: for each geometry type in
enumeration order, compute the type's pick-id budget from the buffer's
`typeToIds` (resolving each id through the source, modelled by `lookup` —
the source's `getReference(id).value!`); if the remaining offset falls
inside the budget, locate the instance and part and reconstruct the
annotation's byte offset by summing the bytes of the preceding same-type
annotations, otherwise subtract the budget and continue. -/
def updateMouseStateGo (h : AnnotationType → RenderHandler)
    (lookup : AnnotationId → Annotation)
    (typeToIds : AnnotationType → List AnnotationId) :
    List AnnotationType → Nat → Option PickResult
  | [], _ => none
  | t :: rest, pickedOffset =>
    let ids := typeToIds t
    let annotations := ids.map lookup
    let pickIds := (h t).pickIdsPerInstance annotations
    let pickIdCount := pickIds.sum
    if pickIdCount ≠ 0 ∧ pickedOffset < pickIdCount then
      let located := findInstance pickIds pickedOffset
      let bufferOffset :=
        ((ids.take located.1).map (fun id => (h t).bytes (lookup id))).sum
      some { pickedAnnotationId := ids.getD located.1 ("")
             pickedOffset := located.2
             pickedAnnotationBufferOffset := bufferOffset }
    else updateMouseStateGo h lookup typeToIds rest (pickedOffset - pickIdCount)

/-- Model of `updateMouseState(mouseState, _, pickedOffset, data)`: resolve a pick
offset against a serialized buffer; `none` models the silent return when
the offset exhausts every type's budget. -/
def updateMouseState (h : AnnotationType → RenderHandler)
    (lookup : AnnotationId → Annotation)
    (typeToIds : AnnotationType → List AnnotationId) (pickedOffset : Nat) :
    Option PickResult :=
  updateMouseStateGo h lookup typeToIds annotationTypes pickedOffset

/-! Association-list lemmas shared by several claims -/

theorem mapGet_cons (kv : AnnotationId × Annotation)
    (l : List (AnnotationId × Annotation)) (id : AnnotationId) :
    mapGet (kv :: l) id = if kv.1 = id then some kv.2 else mapGet l id := by
  by_cases h : kv.1 = id <;> simp [mapGet, List.find?_cons, h]

theorem mapDelete_cons (kv : AnnotationId × Annotation)
    (l : List (AnnotationId × Annotation)) (id : AnnotationId) :
    mapDelete (kv :: l) id = if kv.1 = id then mapDelete l id else kv :: mapDelete l id := by
  by_cases h : kv.1 = id <;> simp [mapDelete, List.filter_cons, h]

theorem mapGet_mapSet_self (m : List (AnnotationId × Annotation))
    (id : AnnotationId) (a : Annotation) : mapGet (mapSet m id a) id = some a := by
  induction m with
  | nil => simp [mapSet, mapGet]
  | cons kv rest ih =>
    by_cases h : kv.1 = id
    · simp [mapSet, mapGet, h]
    · simpa [mapSet, mapGet_cons, h] using ih

theorem mapHas_mapSet_self (m : List (AnnotationId × Annotation))
    (id : AnnotationId) (a : Annotation) : mapHas (mapSet m id a) id = true := by
  induction m with
  | nil => simp [mapSet, mapHas]
  | cons kv rest ih =>
    by_cases h : kv.1 = id
    · simp [mapSet, mapHas, h]
    · simpa [mapSet, mapHas, h] using ih

theorem mapGet_mapDelete_self (m : List (AnnotationId × Annotation))
    (id : AnnotationId) : mapGet (mapDelete m id) id = none := by
  induction m with
  | nil => simp [mapDelete, mapGet]
  | cons kv rest ih =>
    rw [mapDelete_cons]
    by_cases h : kv.1 = id
    · simpa [h] using ih
    · rw [if_neg h, mapGet_cons, if_neg h]
      exact ih

theorem mapGet_mapDelete_ne (m : List (AnnotationId × Annotation))
    (id id2 : AnnotationId) (h : id2 ≠ id) :
    mapGet (mapDelete m id) id2 = mapGet m id2 := by
  induction m with
  | nil => simp [mapDelete, mapGet]
  | cons kv rest ih =>
    rw [mapDelete_cons]
    by_cases hk : kv.1 = id
    · rw [if_pos hk, mapGet_cons, if_neg (by rw [hk]; exact fun hc => h hc.symm)]
      exact ih
    · rw [if_neg hk, mapGet_cons, mapGet_cons]
      by_cases hk2 : kv.1 = id2
      · simp [hk2]
      · rw [if_neg hk2, if_neg hk2]
        exact ih

theorem mem_mapValues_mapSet_self (m : List (AnnotationId × Annotation))
    (a : Annotation) : a ∈ mapValues (mapSet m a.id a) := by
  induction m with
  | nil => simp [mapSet, mapValues]
  | cons kv rest ih =>
    by_cases h : kv.1 = a.id
    · simp [mapSet, mapValues, h]
    · simp only [mapSet, h, if_false, mapValues, List.map_cons, List.mem_cons]
      exact Or.inr ih
def boxAnnotation : Annotation :=
  { id := "box", geometry := .axisAlignedBoundingBox (5, 5, 5) (1, 1, 1) }

def boxAnnotationSwapped : Annotation :=
  { id := "box", geometry := .axisAlignedBoundingBox (1, 1, 1) (5, 5, 5) }

/-- C7: the axis-aligned-bounding-box serializer writes the componentwise
minimum of `pointA`/`pointB` into the first three coordinates and the
componentwise maximum into the last three, symmetrically in the two
corners; packing corners (5,5,5) and (1,1,1) in either order yields the
buffer (1,1,1,5,5,5). -/
theorem aabb_packing_min_max :
    (∀ (pointA pointB : Vec3) (id : AnnotationId) (index : Nat),
      serializerWrites .AXIS_ALIGNED_BOUNDING_BOX
          { id := id, geometry := .axisAlignedBoundingBox pointA pointB } index =
        serializerWrites .AXIS_ALIGNED_BOUNDING_BOX
          { id := id, geometry := .axisAlignedBoundingBox pointB pointA } index) ∧
    (∀ (pointA pointB : Vec3) (id : AnnotationId) (index : Nat),
      serializerWrites .AXIS_ALIGNED_BOUNDING_BOX
          { id := id, geometry := .axisAlignedBoundingBox pointA pointB } index =
        [(index * 6, min pointA.1 pointB.1), (index * 6 + 1, min pointA.2.1 pointB.2.1),
         (index * 6 + 2, min pointA.2.2 pointB.2.2), (index * 6 + 3, max pointA.1 pointB.1),
         (index * 6 + 4, max pointA.2.1 pointB.2.1), (index * 6 + 5, max pointA.2.2 pointB.2.2)]) ∧
    (serializeAnnotations (fun t =>
      if t = .AXIS_ALIGNED_BOUNDING_BOX then [ boxAnnotation] else [])).data =
      [1, 1, 1, 5, 5, 5] ∧
    (serializeAnnotations (fun t =>
      if t = .AXIS_ALIGNED_BOUNDING_BOX then [boxAnnotationSwapped] else [])).data =
      [1, 1, 1, 5, 5, 5] := by
  refine ⟨?_, ?_, by decide, by decide⟩
  · intro pointA pointB id index
    simp [serializerWrites, min_comm, max_comm]
  · intro pointA pointB id index
    rfl

def poly2 : Annotation :=
  { id := "poly", geometry := .polygon [(0, 0, 0), (1, 1, 1)] }

/-- C4 (code bug): evaluating the data-model layout at a 2-point polygon
shows the serializer reserves the static `100000 * 3 * 4 = 1200000` byte
region (`serializedBytes`) for it — the next region starts at byte
1200000 — instead of the 12-byte-per-point × 2 = 24 bytes the claim (and
spec §4.1/§9) requires. -/
theorem polygon_region_static_not_per_point :
    (serializeAnnotations (fun t =>
      if t = .POLYGON then [poly2] else [])).typeToOffset .LINESTRING = 100000 * 3 * 4 ∧
    serializedBytes .POLYGON = 100000 * 3 * 4 ∧
    serializedBytes .LINESTRING = 100000 * 3 * 4 ∧
    (100000 * 3 * 4 : Nat) ≠ 12 * 2 := by
  refine ⟨by decide, rfl, rfl, by decide⟩

/-- C9: `delete(reference, nullify = false)` on a live reference removes
the annotation from the map, fires the store `changed` and
`childDeleted` signals and the reference's own `changed` signal, leaves
every other map entry untouched — and leaves `reference.value` still
holding the old annotation (not tombstoned). -/
theorem delete_no_nullify_reference_stays_stale (s : AnnotationSource)
    (reference : AnnotationReference) (a : Annotation)
    (hlive : reference.value = some a) :
    mapGet (s.delete reference (some false)).1.annotationMap reference.id = none ∧
    (s.delete reference (some false)).2.value = some a ∧
    (s.delete reference (some false)).1.changedCount = s.changedCount + 1 ∧
    (s.delete reference (some false)).1.childDeletedIds = s.childDeletedIds ++ [reference.id] ∧
    (s.delete reference (some false)).2.changedCount = reference.changedCount + 1 ∧
    ∀ id2, id2 ≠ reference.id →
      mapGet (s.delete reference (some false)).1.annotationMap id2 =
        mapGet s.annotationMap id2 := by
  refine ⟨?_, ?_, ?_, ?_, ?_, ?_⟩
  · simp [AnnotationSource.delete, hlive, mapGet_mapDelete_self]
  · simp [AnnotationSource.delete, hlive]
  · simp [AnnotationSource.delete, hlive]
  · simp [AnnotationSource.delete, hlive]
  · simp [AnnotationSource.delete, hlive]
  · intro id2 h2
    simp [AnnotationSource.delete, hlive, mapGet_mapDelete_ne _ _ _ h2]

/-- C10: with filter-by-segmentation enabled but no segmentation state
attached, `segmentationFilter` rejects every annotation, so the rebuilt
serialization has an empty `typeToIds` list for every type, a zero
pick-id budget and an empty buffer. -/
theorem segmentation_filter_detached_rejects_all
    (h : AnnotationType → RenderHandler) (s : AnnotationSource) :
    (∀ t, (updateBufferSerialize h s true none).typeToIds t = []) ∧
    (updateBufferSerialize h s true none).numPickIds = 0 ∧
    (updateBufferSerialize h s true none).totalBytes = 0 := by
  refine ⟨?_, ?_, ?_⟩ <;>
    simp [updateBufferSerialize, serializeAnnotationSet, segmentationFilter,
      filterPasses, RenderHandler.pickIdsPerInstance, annotationTypes]
def pointAnnotation1 : Annotation := { id := "p1", geometry := .point (1, 1, 1) }

def pointAnnotation2 : Annotation := { id := "p2", geometry := .point (2, 2, 2) }

def pointAnnotation3 : Annotation := { id := "p3", geometry := .point (3, 3, 3) }

def lineAnnotation1 : Annotation := { id := "l1", geometry := .line (0, 0, 0) (4, 0, 0) }

def pickStore : AnnotationSource :=
  ((((emptyAnnotationSource.add pointAnnotation1 true ("f1")).1.add
      pointAnnotation2 true ("f2")).1.add
      pointAnnotation3 true ("f3")).1.add
      lineAnnotation1 true ("f4")).1

def pickLookup : AnnotationId → Annotation :=
  fun id => (mapGet pickStore.annotationMap id).getD dfltAnnotation

def pickChunkTypeToIds : AnnotationType → List AnnotationId :=
  (serializeAnnotationSet specRenderHandlers pickStore none).typeToIds

/-- C5: for a buffer serialized from 3 points and 1 line (1 pick id
each), `updateMouseState` resolves picked offset 3 to the line with part
index 0 and offset 1 to the second point, walking types in enumeration
order and subtracting each type's pick-id total. -/
theorem pick_offset_round_trip :
    pickChunkTypeToIds .POINT = ["p1", "p2", "p3"] ∧
    pickChunkTypeToIds .LINE = ["l1"] ∧
    updateMouseState specRenderHandlers pickLookup pickChunkTypeToIds 3 =
      some { pickedAnnotationId := "l1", pickedOffset := 0,
             pickedAnnotationBufferOffset := 0 } ∧
    updateMouseState specRenderHandlers pickLookup pickChunkTypeToIds 1 =
      some { pickedAnnotationId := "p2", pickedOffset := 0,
             pickedAnnotationBufferOffset := 12 } := by
  exact ⟨by decide, by decide, by decide, by decide⟩
theorem getReference_annotationMap (s : AnnotationSource) (id : AnnotationId) :
    (getReference s id).1.annotationMap = s.annotationMap := by
  unfold getReference
  cases h : s.references.find? (fun kv => kv.1 = id) <;> simp [h]

theorem getReference_pending (s : AnnotationSource) (id : AnnotationId) :
    (getReference s id).1.pending = s.pending := by
  unfold getReference
  cases h : s.references.find? (fun kv => kv.1 = id) <;> simp [h]

theorem getReference_changedCount (s : AnnotationSource) (id : AnnotationId) :
    (getReference s id).1.changedCount = s.changedCount := by
  unfold getReference
  cases h : s.references.find? (fun kv => kv.1 = id) <;> simp [h]

theorem getReference_childAddedIds (s : AnnotationSource) (id : AnnotationId) :
    (getReference s id).1.childAddedIds = s.childAddedIds := by
  unfold getReference
  cases h : s.references.find? (fun kv => kv.1 = id) <;> simp [h]

theorem getReference_annotationSizeRange (s : AnnotationSource) (id : AnnotationId) :
    (getReference s id).1.annotationSizeRange = s.annotationSizeRange := by
  unfold getReference
  cases h : s.references.find? (fun kv => kv.1 = id) <;> simp [h]

theorem getReference_id (s : AnnotationSource) (id : AnnotationId) :
    (getReference s id).2.id = id := by
  unfold getReference
  cases h : s.references.find? (fun kv => kv.1 = id) <;> simp [h]

theorem add_success (s : AnnotationSource) (a : Annotation) (commit : Bool)
    (fresh : AnnotationId) (hne : a.id ≠ "") (hnew : mapHas s.annotationMap a.id = false) :
    (s.add a commit fresh).1.annotationMap = mapSet s.annotationMap a.id a ∧
    (s.add a commit fresh).1.pending =
      (if commit then s.pending
       else if a.id ∈ s.pending then s.pending else s.pending ++ [a.id]) ∧
    (s.add a commit fresh).1.changedCount = s.changedCount + 1 ∧
    (s.add a commit fresh).1.childAddedIds = s.childAddedIds ++ [a.id] ∧
    (s.add a commit fresh).1.annotationSizeRange =
      updateAnnotationSizeRange s.annotationSizeRange a ∧
    ∃ ref, (s.add a commit fresh).2 = .ok ref ∧ ref.id = a.id := by
  unfold AnnotationSource.add
  simp only [hne, hnew, Bool.false_eq_true, and_false, if_false]
  cases commit <;>
    simp [hne, getReference_annotationMap, getReference_pending, getReference_id,
      getReference_changedCount, getReference_childAddedIds,
      getReference_annotationSizeRange]
theorem add_duplicate_raw (s : AnnotationSource) (b : Annotation) (c : Bool)
    (f : AnnotationId) (hbne : b.id ≠ "") (hhas : mapHas s.annotationMap b.id = true) :
    s.add b c f = (s, .error ("Annotation id already exists.")) := by
  unfold AnnotationSource.add
  simp [hbne, hhas]

/-- C8: adding twice with the same explicit id succeeds the first time
and fails the second with a synchronous duplicate-id error, leaving the
store exactly as after the first add — in particular the id still maps to
the first annotation. -/
theorem add_duplicate_id_error (s : AnnotationSource) (a b : Annotation)
    (c1 c2 : Bool) (f1 f2 : AnnotationId)
    (hid : b.id = a.id) (hne : a.id ≠ "") (hnew : mapHas s.annotationMap a.id = false) :
    (∃ ref, (s.add a c1 f1).2 = .ok ref) ∧
    ((s.add a c1 f1).1.add b c2 f2).1 = (s.add a c1 f1).1 ∧
    ((s.add a c1 f1).1.add b c2 f2).2 = .error ("Annotation id already exists.") ∧
    mapGet ((s.add a c1 f1).1.add b c2 f2).1.annotationMap a.id = some a := by
  obtain ⟨hmap, -, -, -, -, ref, hok, -⟩ := add_success s a c1 f1 hne hnew
  have hhas : mapHas (s.add a c1 f1).1.annotationMap b.id = true := by
    rw [hid, hmap]; exact mapHas_mapSet_self _ _ _
  have hbne : b.id ≠ "" := by rw [hid]; exact hne
  have herr := add_duplicate_raw (s.add a c1 f1).1 b c2 f2 hbne hhas
  refine ⟨⟨ref, hok⟩, by rw [herr], by rw [herr], ?_⟩
  rw [herr]
  dsimp only
  rw [hmap]
  exact mapGet_mapSet_self _ _ _

def persistedAnnotations (s : AnnotationSource) : List Annotation :=
  (mapValues s.annotationMap).filter (fun annotation => annotation.id ∉ s.pending)

theorem toJSON_eq_map_persisted (s : AnnotationSource) :
    s.toJSON = (persistedAnnotations s).map annotationToJson := by
  unfold AnnotationSource.toJSON persistedAnnotations
  induction mapValues s.annotationMap with
  | nil => rfl
  | cons a l ih =>
    by_cases h : a.id ∈ s.pending <;>
      simp [List.filterMap_cons, List.filter_cons, h, ih]

/-- C2 (amended): an annotation added with `commit = false` is marked
pending and excluded from JSON persistence (`toJSON` serializes exactly
the non-pending annotations, and none of them carries the pending id),
but the binary serialization `serializeAnnotationSet` still packs it
(its id appears in its type's `typeToIds` list); after `commit` the
annotation is persisted. -/
theorem pending_excluded_from_persistence_only (h : AnnotationType → RenderHandler)
    (s : AnnotationSource) (a : Annotation) (fresh : AnnotationId)
    (hne : a.id ≠ "") (hnew : mapHas s.annotationMap a.id = false) :
    ((s.add a false fresh).1.toJSON =
      (persistedAnnotations (s.add a false fresh).1).map annotationToJson) ∧
    (∀ ann ∈ persistedAnnotations (s.add a false fresh).1, ann.id ≠ a.id) ∧
    a.id ∈ (serializeAnnotationSet h (s.add a false fresh).1 none).typeToIds a.type ∧
    (∃ ref, (s.add a false fresh).2 = Except.ok ref ∧
      a ∈ persistedAnnotations ((s.add a false fresh).1.commitRef ref)) := by
  obtain ⟨hmap, hpend, -, -, -, ref, hok, hrefid⟩ := add_success s a false fresh hne hnew
  have hmem : a ∈ mapValues (s.add a false fresh).1.annotationMap := by
    rw [hmap]; exact mem_mapValues_mapSet_self _ _
  have hpendmem : a.id ∈ (s.add a false fresh).1.pending := by
    rw [hpend]
    simp only [Bool.false_eq_true, if_false]
    by_cases hc : a.id ∈ s.pending
    · simp [hc]
    · simp [hc]
  refine ⟨toJSON_eq_map_persisted _, ?_, ?_, ref, hok, ?_⟩
  · intro ann hann
    unfold persistedAnnotations at hann
    rw [List.mem_filter] at hann
    intro hcontra
    have := hann.2
    rw [hcontra] at this
    simp [hpendmem] at this
  · unfold serializeAnnotationSet
    dsimp only
    refine List.mem_map.mpr ⟨a, ?_, rfl⟩
    refine List.mem_filter.mpr ⟨List.mem_filter.mpr ⟨hmem, ?_⟩, ?_⟩
    · simp [filterPasses]
    · simp
  · unfold persistedAnnotations AnnotationSource.commitRef
    dsimp only
    refine List.mem_filter.mpr ⟨hmem, ?_⟩
    rw [hrefid]
    simp

def pendingPointAnnotation : Annotation := { id := "pend", geometry := .point (1, 2, 3) }

def pendingStore : AnnotationSource :=
  (emptyAnnotationSource.add pendingPointAnnotation false ("f")).1

/-- C2 counterexample: a store holding one pending point annotation still
packs it into the binary serialization (`typeToIds` lists it and it
contributes a pick id) even though `toJSON` omits it — the claim that the
binary serialization excludes pending annotations is false. -/
theorem pending_still_packed_counterexample :
    (serializeAnnotationSet specRenderHandlers pendingStore none).typeToIds .POINT = ["pend"] ∧
    (serializeAnnotationSet specRenderHandlers pendingStore none).numPickIds = 1 ∧
    pendingStore.toJSON = [] := by
  refine ⟨by decide, by decide, by rfl⟩

def pendingPointAnnotation2 : Annotation := { id := "pend2", geometry := .point (4, 5, 6) }

/-- C2 witness: `pending_excluded_from_persistence_only` applied to a
concrete pending annotation added to the empty store. -/
theorem pending_excluded_witness :
    (pendingPointAnnotation2.id ≠ "" ∧
      mapHas emptyAnnotationSource.annotationMap pendingPointAnnotation2.id = false) ∧
    (((emptyAnnotationSource.add pendingPointAnnotation2 false ("f")).1.toJSON =
      (persistedAnnotations (emptyAnnotationSource.add pendingPointAnnotation2 false ("f")).1).map
        annotationToJson) ∧
    (∀ ann ∈ persistedAnnotations (emptyAnnotationSource.add pendingPointAnnotation2 false ("f")).1,
      ann.id ≠ pendingPointAnnotation2.id) ∧
    pendingPointAnnotation2.id ∈
      (serializeAnnotationSet specRenderHandlers
        (emptyAnnotationSource.add pendingPointAnnotation2 false ("f")).1 none).typeToIds
        pendingPointAnnotation2.type ∧
    (∃ ref, (emptyAnnotationSource.add pendingPointAnnotation2 false ("f")).2 = Except.ok ref ∧
      pendingPointAnnotation2 ∈ persistedAnnotations
        ((emptyAnnotationSource.add pendingPointAnnotation2 false ("f")).1.commitRef ref))) :=
  ⟨⟨by decide, by decide⟩,
   pending_excluded_from_persistence_only specRenderHandlers emptyAnnotationSource
     pendingPointAnnotation2 ("f") (by decide) (by decide)⟩
def duplicateAnnotationA : Annotation := { id := "abc", geometry := .point (1, 0, 0) }

def duplicateAnnotationB : Annotation := { id := "abc", geometry := .point (2, 0, 0) }

/-- C8 witness: `add_duplicate_id_error` applied to two concrete
annotations sharing the id `abc`. -/
theorem add_duplicate_id_error_witness :
    (duplicateAnnotationB.id = duplicateAnnotationA.id ∧ duplicateAnnotationA.id ≠ "" ∧
      mapHas emptyAnnotationSource.annotationMap duplicateAnnotationA.id = false) ∧
    ((∃ ref, (emptyAnnotationSource.add duplicateAnnotationA true ("f1")).2 = .ok ref) ∧
     ((emptyAnnotationSource.add duplicateAnnotationA true ("f1")).1.add
        duplicateAnnotationB true ("f2")).1 =
       (emptyAnnotationSource.add duplicateAnnotationA true ("f1")).1 ∧
     ((emptyAnnotationSource.add duplicateAnnotationA true ("f1")).1.add
        duplicateAnnotationB true ("f2")).2 =
       .error ("Annotation id already exists.") ∧
     mapGet ((emptyAnnotationSource.add duplicateAnnotationA true ("f1")).1.add
        duplicateAnnotationB true ("f2")).1.annotationMap duplicateAnnotationA.id =
       some duplicateAnnotationA) :=
  ⟨⟨by decide, by decide, by decide⟩,
   add_duplicate_id_error emptyAnnotationSource duplicateAnnotationA duplicateAnnotationB
     true true ("f1") ("f2") (by decide) (by decide) (by decide)⟩

def deleteStoreAnnotation : Annotation := { id := "del", geometry := .point (7, 8, 9) }

def deleteStore : AnnotationSource :=
  (emptyAnnotationSource.add deleteStoreAnnotation true ("f")).1

def staleReference : AnnotationReference :=
  { id := "del", value := some deleteStoreAnnotation }

/-- C9 witness: `delete_no_nullify_reference_stays_stale` applied to a
concrete one-annotation store. -/
theorem delete_no_nullify_witness :
    staleReference.value = some deleteStoreAnnotation ∧
    (mapGet (deleteStore.delete staleReference (some false)).1.annotationMap
        staleReference.id = none ∧
     (deleteStore.delete staleReference (some false)).2.value = some deleteStoreAnnotation ∧
     (deleteStore.delete staleReference (some false)).1.changedCount =
       deleteStore.changedCount + 1 ∧
     (deleteStore.delete staleReference (some false)).1.childDeletedIds =
       deleteStore.childDeletedIds ++ [staleReference.id] ∧
     (deleteStore.delete staleReference (some false)).2.changedCount =
       staleReference.changedCount + 1 ∧
     ∀ id2, id2 ≠ staleReference.id →
       mapGet (deleteStore.delete staleReference (some false)).1.annotationMap id2 =
         mapGet deleteStore.annotationMap id2) :=
  ⟨rfl, delete_no_nullify_reference_stays_stale deleteStore staleReference
    deleteStoreAnnotation rfl⟩
/-! The size-range invariant (claim C3) -/

def sizeList (m : List (AnnotationId × Annotation)) : List ℚ :=
  (mapValues m).filterMap (fun annotation => annotation.size)

/-- The spec's size-range invariant: slot 0 is the minimum defined size
(`none` = the `-Infinity` sentinel when no annotation defines one), slot
1 symmetrically the maximum. -/
def sizeRangeInvariant (s : AnnotationSource) : Prop :=
  s.annotationSizeRange.1 = (sizeList s.annotationMap).min? ∧
  s.annotationSizeRange.2 = (sizeList s.annotationMap).max?

theorem ite_lt_eq_min (l v : ℚ) :
    (if v < l then some v else some l) = some (min l v) := by
  rcases lt_or_ge v l with h | h
  · rw [if_pos h, min_eq_right (le_of_lt h)]
  · rw [if_neg (not_lt.mpr h), min_eq_left h]

theorem ite_gt_eq_max (h v : ℚ) :
    (if v > h then some v else some h) = some (max h v) := by
  rcases lt_or_ge h v with hlt | hge
  · rw [if_pos hlt, max_eq_right (le_of_lt hlt)]
  · rw [if_neg (not_lt.mpr hge), max_eq_left hge]

theorem updateAnnotationSizeRange_size_none (range : Option ℚ × Option ℚ)
    (a : Annotation) (h : a.size = none) :
    updateAnnotationSizeRange range a = range := by
  rcases range with ⟨lo, hi⟩
  cases lo <;> cases hi <;> simp [updateAnnotationSizeRange, h]

theorem updateAnnotationSizeRange_size_some (range : Option ℚ × Option ℚ)
    (a : Annotation) (v : ℚ) (h : a.size = some v) :
    updateAnnotationSizeRange range a =
      (some (match range.1 with | none => v | some l => min l v),
       some (match range.2 with | none => v | some x => max x v)) := by
  rcases range with ⟨lo, hi⟩
  cases lo <;> cases hi <;>
    simp [updateAnnotationSizeRange, h, lt_irrefl, ite_lt_eq_min, ite_gt_eq_max]

def optAccMin (lo : Option ℚ) (vs : List ℚ) : Option ℚ :=
  match lo with
  | none => vs.min?
  | some l => some (vs.foldl min l)

def optAccMax (hi : Option ℚ) (vs : List ℚ) : Option ℚ :=
  match hi with
  | none => vs.max?
  | some h => some (vs.foldl max h)

theorem sizeRange_foldl (anns : List Annotation) (lo hi : Option ℚ) :
    anns.foldl updateAnnotationSizeRange (lo, hi) =
      (optAccMin lo (anns.filterMap (fun a => a.size)),
       optAccMax hi (anns.filterMap (fun a => a.size))) := by
  induction anns generalizing lo hi with
  | nil => cases lo <;> cases hi <;> simp [optAccMin, optAccMax, List.min?, List.max?]
  | cons a rest ih =>
    cases h : a.size with
    | none =>
      rw [List.foldl_cons, updateAnnotationSizeRange_size_none _ _ h]
      simp [List.filterMap_cons, h, ih]
    | some v =>
      rw [List.foldl_cons, updateAnnotationSizeRange_size_some _ _ v h, ih]
      cases lo <;> cases hi <;>
        simp [List.filterMap_cons, h, optAccMin, optAccMax, List.min?, List.max?]

theorem recalculate_establishes_invariant (m : List (AnnotationId × Annotation)) :
    recalculateAnnotationSizeRange m = ((sizeList m).min?, (sizeList m).max?) := by
  unfold recalculateAnnotationSizeRange sizeList
  rw [sizeRange_foldl]
  rfl

/-- C3 (amended): `delete` on a live reference re-establishes the
size-range invariant via the full `recalculateAnnotationSizeRange`
rescan, for any prior store state; the other mutations do not — `clear`
in particular leaves the stale range untouched (see the
counterexample). -/
theorem delete_restores_size_range_invariant (s : AnnotationSource)
    (reference : AnnotationReference) (nullify : Option Bool) (a : Annotation)
    (hlive : reference.value = some a) :
    sizeRangeInvariant (s.delete reference nullify).1 := by
  unfold sizeRangeInvariant
  simp [AnnotationSource.delete, hlive, recalculate_establishes_invariant]

def sizedAnnotation : Annotation :=
  { id := "sz", geometry := .point (0, 0, 0), size := some 3 }

def sizedStore : AnnotationSource :=
  (emptyAnnotationSource.add sizedAnnotation true ("f")).1

/-- C3 counterexample: `clear` empties the map but leaves
`annotationSizeRange` untouched, so after clearing a store holding one
annotation of size 3 the range is still `(3, 3)` instead of the
`(-Infinity, +Infinity)` sentinels the claim requires. -/
theorem clear_leaves_stale_size_range :
    sizedStore.clear.annotationMap = [] ∧
    sizedStore.clear.annotationSizeRange = (some 3, some 3) ∧
    ¬ sizeRangeInvariant sizedStore.clear := by
  refine ⟨by decide, by decide, ?_⟩
  intro hinv
  have h1 := hinv.1
  revert h1
  decide

def sizedReference : AnnotationReference :=
  { id := "sz", value := some sizedAnnotation }

/-- C3 witness: `delete_restores_size_range_invariant` applied to a
concrete one-annotation store. -/
theorem delete_restores_invariant_witness :
    sizedReference.value = some sizedAnnotation ∧
    sizeRangeInvariant (sizedStore.delete sizedReference none).1 :=
  ⟨rfl, delete_restores_size_range_invariant sizedStore sizedReference none
    sizedAnnotation rfl⟩
/-! restoreState (claim C6) -/

theorem finishRestore_annotationMap (s : AnnotationSource) :
    (finishRestore s).annotationMap = s.annotationMap := rfl

theorem restoreStateGo_map_independent (freshIds : Nat → AnnotationId)
    (entries : List Json) :
    ∀ (i : Nat) (sA sB : AnnotationSource), sA.annotationMap = sB.annotationMap →
      (restoreStateGo freshIds sA entries i).1.annotationMap =
        (restoreStateGo freshIds sB entries i).1.annotationMap ∧
      (restoreStateGo freshIds sA entries i).2 = (restoreStateGo freshIds sB entries i).2 := by
  induction entries with
  | nil =>
    intro i sA sB h
    exact ⟨h, rfl⟩
  | cons e rest ih =>
    intro i sA sB h
    cases he : restoreAnnotation (freshIds i) e with
    | error msg => simp [restoreStateGo, he, h]
    | ok a =>
      simp only [restoreStateGo, he]
      exact ih (i + 1) _ _ (by simp [h])

theorem restoreStateGo_none_iff (freshIds : Nat → AnnotationId) :
    ∀ (entries : List Json) (i : Nat) (s : AnnotationSource),
      (restoreStateGo freshIds s entries i).2 = none ↔
        ∀ p ∈ List.enumFrom i entries,
          ∃ a, restoreAnnotation (freshIds p.1) p.2 = Except.ok a := by
  intro entries
  induction entries with
  | nil => intro i s; simp [restoreStateGo, List.enumFrom]
  | cons e rest ih =>
    intro i s
    cases he : restoreAnnotation (freshIds i) e with
    | error msg =>
      simp only [restoreStateGo, he, List.enumFrom]
      constructor
      · intro hc; exact absurd hc (by simp)
      · intro hall
        obtain ⟨a, ha⟩ := hall (i, e) (List.mem_cons_self _ _)
        rw [he] at ha
        exact absurd ha (by simp)
    | ok a =>
      simp only [restoreStateGo, he, List.enumFrom]
      rw [ih (i + 1)]
      constructor
      · intro hall p hp
        rcases List.mem_cons.mp hp with hp0 | hptail
        · subst hp0; exact ⟨a, he⟩
        · exact hall p hptail
      · intro hall p hp
        exact hall p (List.mem_cons_of_mem _ hp)

/-- C6 (amended): `restoreState` surfaces a validation error to the
caller (the call returns no error exactly when every payload entry
restores successfully), but it does not leave the store in its prior
state: the map is cleared before parsing, so the post-call map and error
are entirely independent of the prior contents. -/
theorem restoreState_clears_before_validating (s1 s2 : AnnotationSource)
    (obj : Option Json) (freshIds : Nat → AnnotationId) :
    ((s1.restoreState obj freshIds).1.annotationMap =
      (s2.restoreState obj freshIds).1.annotationMap ∧
     (s1.restoreState obj freshIds).2 = (s2.restoreState obj freshIds).2) ∧
    (∀ entries : List Json,
      (s1.restoreState (some (Json.arr entries)) freshIds).2 = none ↔
        ∀ p ∈ entries.enum, ∃ a, restoreAnnotation (freshIds p.1) p.2 = Except.ok a) := by
  constructor
  · unfold AnnotationSource.restoreState
    cases obj with
    | none => exact ⟨rfl, rfl⟩
    | some j =>
      cases j with
      | arr entries =>
        obtain ⟨hmap, herr⟩ := restoreStateGo_map_independent freshIds entries 0
          { s1 with annotationMap := [], pending := [] }
          { s2 with annotationMap := [], pending := [] } rfl
        dsimp only
        rcases hA : restoreStateGo freshIds
            { s1 with annotationMap := [], pending := [] } entries 0 with ⟨sA, eA⟩
        rcases hB : restoreStateGo freshIds
            { s2 with annotationMap := [], pending := [] } entries 0 with ⟨sB, eB⟩
        rw [hA, hB] at hmap herr
        dsimp at hmap herr
        cases eA with
        | some e =>
          cases eB with
          | some eb => cases herr; exact ⟨hmap, rfl⟩
          | none => cases herr
        | none =>
          cases eB with
          | some eb => cases herr
          | none => exact ⟨by simpa [finishRestore_annotationMap] using hmap, rfl⟩
      | null => exact ⟨rfl, rfl⟩
      | bool b => exact ⟨rfl, rfl⟩
      | num q => exact ⟨rfl, rfl⟩
      | str st => exact ⟨rfl, rfl⟩
      | obj fields => exact ⟨rfl, rfl⟩
  · intro entries
    unfold AnnotationSource.restoreState
    dsimp only
    rcases hA : restoreStateGo freshIds
        { s1 with annotationMap := [], pending := [] } entries 0 with ⟨sA, eA⟩
    have hiff := restoreStateGo_none_iff freshIds entries 0
      { s1 with annotationMap := [], pending := [] }
    rw [hA] at hiff
    dsimp at hiff
    cases eA with
    | some e =>
      constructor
      · intro hc; exact absurd hc (by simp)
      · intro hall
        exact absurd (hiff.mpr hall) (by simp)
    | none =>
      constructor
      · intro _; exact hiff.mp rfl
      · intro _; rfl
def priorAnnotation : Annotation := { id := "prior", geometry := .point (0, 0, 0) }

def priorStore : AnnotationSource :=
  (emptyAnnotationSource.add priorAnnotation true ("f")).1

def badRestoreEntry : Json := Json.obj [("type", Json.str ("point"))]

/-- C6 counterexample: restoring a payload whose entry fails schema
validation (a point annotation missing its `id`) over a non-empty store
surfaces the error but leaves the map empty, not in its prior state —
the claim that the prior contents survive a failed restore is false. -/
theorem restore_error_not_prior_state :
    (priorStore.restoreState (some (Json.arr [badRestoreEntry]))
      (fun _ => "fresh")).2.isSome = true ∧
    (priorStore.restoreState (some (Json.arr [badRestoreEntry]))
      (fun _ => "fresh")).1.annotationMap = [] ∧
    priorStore.annotationMap ≠ [] := by
  refine ⟨by rfl, by rfl, by decide⟩
/-! Determinism of `serializeAnnotations` (claim C1) -/

theorem eq_of_perm_of_map_eq {α β : Type _} (f : α → β) :
    ∀ l1 l2 : List α, l1.Perm l2 → l1.map f = l2.map f →
      (l1.map f).Nodup → l1 = l2 := by
  intro l1
  induction l1 with
  | nil =>
    intro l2 hp _ _
    exact (hp.symm.eq_nil).symm
  | cons a t1 ih =>
    intro l2 hp hmap hnodup
    cases l2 with
    | nil => exact absurd hp.length_eq (by simp)
    | cons b t2 =>
      simp only [List.map_cons, List.cons.injEq] at hmap
      obtain ⟨hfab, hmaptail⟩ := hmap
      have hab : a = b := by
        have hbmem : b ∈ a :: t1 := hp.mem_iff.mpr (List.mem_cons_self b t2)
        rcases List.mem_cons.mp hbmem with h | h
        · exact h.symm
        · exfalso
          have hmem : f b ∈ t1.map f := List.mem_map_of_mem f h
          rw [← hfab] at hmem
          simp only [List.map_cons, List.nodup_cons] at hnodup
          exact hnodup.1 hmem
      subst hab
      have htail : t1 = t2 := by
        refine ih t2 hp.cons_inv hmaptail ?_
        simp only [List.map_cons, List.nodup_cons] at hnodup
        exact hnodup.2
      rw [htail]

theorem sortAnnotations_eq_of_perm (l1 l2 : List Annotation) (hp : l1.Perm l2)
    (hnd : (l1.map Annotation.id).Nodup) :
    sortAnnotations l1 = sortAnnotations l2 := by
  have p1 : (sortAnnotations l1).Perm l1 := List.perm_insertionSort annIdLe l1
  have p2 : (sortAnnotations l2).Perm l2 := List.perm_insertionSort annIdLe l2
  have p : (sortAnnotations l1).Perm (sortAnnotations l2) :=
    p1.trans (hp.trans p2.symm)
  have s1 : List.Sorted annIdLe (sortAnnotations l1) :=
    List.sorted_insertionSort annIdLe l1
  have s2 : List.Sorted annIdLe (sortAnnotations l2) :=
    List.sorted_insertionSort annIdLe l2
  have ms1 : List.Sorted (fun x y : AnnotationId => x ≤ y)
      ((sortAnnotations l1).map Annotation.id) :=
    List.Pairwise.map Annotation.id (fun _ _ h => h) s1
  have ms2 : List.Sorted (fun x y : AnnotationId => x ≤ y)
      ((sortAnnotations l2).map Annotation.id) :=
    List.Pairwise.map Annotation.id (fun _ _ h => h) s2
  haveI : IsAntisymm AnnotationId (fun x y : AnnotationId => x ≤ y) :=
    ⟨fun _ _ h1 h2 => le_antisymm h1 h2⟩
  have mids : (sortAnnotations l1).map Annotation.id =
      (sortAnnotations l2).map Annotation.id :=
    List.eq_of_perm_of_sorted (p.map Annotation.id) ms1 ms2
  have hnd1 : ((sortAnnotations l1).map Annotation.id).Nodup :=
    ((p1.map Annotation.id).nodup_iff).mpr hnd
  exact eq_of_perm_of_map_eq Annotation.id _ _ p mids hnd1

/-- C1 (amended): the data-model serializer `serializeAnnotations` processes
geometry types in fixed enumeration order and sorts each type's bucket by
id (byte-wise string comparison via `compare3WayById`), so for buckets
that are permutations of each other with distinct ids the whole output
(ids, offsets, packed buffer, segment tables) is identical, and every
`typeToIds` list is sorted.  The store-level `serializeAnnotationSet`, by
contrast, does not sort (see the counterexample). -/
theorem serializeAnnotations_deterministic (f g : AnnotationType → List Annotation)
    (hperm : ∀ t, (f t).Perm (g t))
    (hnodup : ∀ t, ((f t).map Annotation.id).Nodup) :
    serializeAnnotations f = serializeAnnotations g ∧
    ∀ t, List.Sorted (fun x y : AnnotationId => x ≤ y)
      ((serializeAnnotations f).typeToIds t) := by
  constructor
  · unfold serializeAnnotations
    congr 1
    funext t
    exact sortAnnotations_eq_of_perm (f t) (g t) (hperm t) (hnodup t)
  · intro t
    show List.Sorted (fun x y : AnnotationId => x ≤ y)
      ((sortAnnotations (f t)).map Annotation.id)
    exact List.Pairwise.map Annotation.id (fun _ _ h => h)
      (List.sorted_insertionSort annIdLe (f t))

def orderAnnotationA : Annotation := { id := "a", geometry := .point (1, 0, 0) }

def orderAnnotationB : Annotation := { id := "b", geometry := .point (2, 0, 0) }

def storeBA : AnnotationSource :=
  ((emptyAnnotationSource.add orderAnnotationB true ("f1")).1.add orderAnnotationA true ("f2")).1

def storeAB : AnnotationSource :=
  ((emptyAnnotationSource.add orderAnnotationA true ("f1")).1.add orderAnnotationB true ("f2")).1

/-- C1 counterexample: `serializeAnnotationSet` does not sort — two stores
holding the same two point annotations, inserted in opposite orders,
produce different (and unsorted) `typeToIds` lists, so the claim that the
store serialization is independent of insertion order is false. -/
theorem serializeAnnotationSet_order_dependent :
    (mapValues storeBA.annotationMap).Perm (mapValues storeAB.annotationMap) ∧
    (serializeAnnotationSet specRenderHandlers storeBA none).typeToIds .POINT = ["b", "a"] ∧
    (serializeAnnotationSet specRenderHandlers storeAB none).typeToIds .POINT = ["a", "b"] ∧
    (serializeAnnotationSet specRenderHandlers storeBA none).typeToIds .POINT ≠
      (serializeAnnotationSet specRenderHandlers storeAB none).typeToIds .POINT ∧
    ¬ List.Sorted (fun x y : AnnotationId => x ≤ y)
        ((serializeAnnotationSet specRenderHandlers storeBA none).typeToIds .POINT) := by
  have h1 : (serializeAnnotationSet specRenderHandlers storeBA none).typeToIds .POINT =
      ["b", "a"] := by decide
  refine ⟨by decide, h1, by decide, by decide, ?_⟩
  rw [h1]
  intro hs
  have hba : ("b" : AnnotationId) ≤ "a" :=
    List.rel_of_sorted_cons hs ("a") (List.mem_cons_self _ _)
  rw [String.le_iff_toList_le] at hba
  revert hba
  decide

def bucketsAB : AnnotationType → List Annotation := fun t =>
  if t = .POINT then [orderAnnotationA, orderAnnotationB] else []

def bucketsBA : AnnotationType → List Annotation := fun t =>
  if t = .POINT then [orderAnnotationB, orderAnnotationA] else []

theorem bucket_perm (t : AnnotationType) : (bucketsAB t).Perm (bucketsBA t) := by
  cases t <;> simp only [bucketsAB, bucketsBA] <;>
    first
    | exact List.Perm.swap _ _ _
    | exact List.Perm.refl _

theorem bucket_nodup (t : AnnotationType) : ((bucketsAB t).map Annotation.id).Nodup := by
  cases t <;> simp only [bucketsAB, bucketsBA] <;> decide

/-- C1 witness: `serializeAnnotations_deterministic` applied to two
concrete permuted point buckets. -/
theorem serializeAnnotations_deterministic_witness :
    ((∀ t, (bucketsAB t).Perm (bucketsBA t)) ∧
     (∀ t, ((bucketsAB t).map Annotation.id).Nodup)) ∧
    (serializeAnnotations bucketsAB = serializeAnnotations bucketsBA ∧
     ∀ t, List.Sorted (fun x y : AnnotationId => x ≤ y)
       ((serializeAnnotations bucketsAB).typeToIds t)) :=
  ⟨⟨bucket_perm, bucket_nodup⟩,
   serializeAnnotations_deterministic bucketsAB bucketsBA bucket_perm bucket_nodup⟩
